import Mathlib

/-!
Verification development for the slippage estimation and protection engine
of the StellarSwipe backend.  The TypeScript services are embedded shallowly:
prices, quantities and percentages become exact rationals, JavaScript Maps
become association lists, thrown exceptions become the Except monad, and
optional fields become Option with the truthiness tests of the source spelled
out (a numeric field is truthy when it is nonzero, an optional field when it
is present).
-/

/-- Trade side, from the TypeScript union type for the side field. -/
inductive Side where
  | buy
  | sell
deriving DecidableEq, Repr

/-- One price level of the order book, from the MarketDepth interface of
slippage-calculator.service.ts. -/
structure OrderLevel where
  price : ℚ
  quantity : ℚ
deriving DecidableEq, Repr

/-- Order-book snapshot, from the MarketDepth interface (the capture
timestamp is unused by every embedded function and is omitted). -/
structure MarketDepth where
  bids : List OrderLevel
  asks : List OrderLevel
deriving DecidableEq, Repr

/-- Tolerance presets, from the SlippageToleranceLevel enum. -/
inductive SlippageToleranceLevel where
  | STRICT
  | MODERATE
  | RELAXED
deriving DecidableEq, Repr

/-- Engine recommendation, from the union type of generateRecommendation. -/
inductive TradeRecommendation where
  | proceed
  | caution
  | delay
deriving DecidableEq, Repr

/-- Protection-layer recommendation, from the union type of the
SlippageProtectionResult interface. -/
inductive ProtectionRecommendation where
  | proceed
  | caution
  | reject
deriving DecidableEq, Repr

/-- Slippage configuration, from SlippageConfigDto.  The three optional
fields are Option so that the truthiness checks of the services can be
modelled faithfully. -/
structure SlippageConfigDto where
  maxSlippagePercent : ℚ
  toleranceLevel : Option SlippageToleranceLevel
  enableDynamicSlippage : Option Bool
  maxExecutionTimeMs : Option ℚ
deriving DecidableEq, Repr

/-- Per-symbol historical running statistics, from the HistoricalSlippage
interface (lastUpdated omitted: no embedded function reads it). -/
structure HistoricalSlippage where
  symbol : String
  averageSlippage : ℚ
  maxSlippage : ℚ
  sampleCount : ℕ
deriving DecidableEq, Repr

/-- Estimation request, from SlippageEstimationDto. -/
structure SlippageEstimationDto where
  symbol : String
  side : Side
  quantity : ℚ
  expectedPrice : Option ℚ
deriving DecidableEq, Repr

/-- Estimation response, from SlippageEstimateResponseDto. -/
structure SlippageEstimateResponseDto where
  estimatedSlippagePercent : ℚ
  estimatedSlippageAmount : ℚ
  currentMarketPrice : ℚ
  estimatedPriceRangeMin : ℚ
  estimatedPriceRangeMax : ℚ
  liquidityScore : ℚ
  recommendation : TradeRecommendation
  reasoning : String
deriving DecidableEq, Repr

/-- Realized slippage report, from SlippageReportDto.  Timestamps are
rationals in an abstract clock unit. -/
structure SlippageReportDto where
  expectedPrice : ℚ
  actualPrice : ℚ
  slippageAmount : ℚ
  slippagePercent : ℚ
  quantity : ℚ
  totalSlippageCost : ℚ
  withinLimits : Bool
  timestamp : ℚ
  symbol : String
  side : Side
deriving DecidableEq, Repr

/-- Result of the protection check, from the SlippageProtectionResult
interface. -/
structure SlippageProtectionResult where
  allowed : Bool
  reason : String
  estimatedSlippage : ℚ
  maxAllowedSlippage : ℚ
  recommendation : ProtectionRecommendation
deriving DecidableEq, Repr

/-- Book side selected by calculateExecutionPrice and
calculateLiquidityScore: asks for a buy, bids for a sell. -/
def sideOrders (side : Side) (depth : MarketDepth) : List OrderLevel :=
  match side with
  | .buy => depth.asks
  | .sell => depth.bids

/-- Level walk of calculateExecutionPrice: the for-loop over the orders with
the accumulators remainingQuantity, totalCost and executedQuantity, breaking
as the source does when the remaining quantity is at most zero.  Returns the
final triple (remaining, cost, executed). -/
def walkOrders : List OrderLevel → ℚ → ℚ → ℚ → ℚ × ℚ × ℚ
  | [], r, c, e => (r, c, e)
  | o :: rest, r, c, e =>
    if r ≤ 0 then (r, c, e)
    else walkOrders rest (r - min r o.quantity)
      (c + min r o.quantity * o.price) (e + min r o.quantity)

/-- Price of the last level of the list, as the source expression
orders[orders.length - 1].price (0 when the list is empty; the callers only
use this under a nonemptiness guard). -/
def worstPrice (orders : List OrderLevel) : ℚ :=
  match orders.getLast? with
  | some o => o.price
  | none => 0

/-- Projected execution price, from calculateExecutionPrice of
slippage-calculator.service.ts: walk the opposite book side, extrapolate an
unfilled remainder at 1.02 times the worst level price when at least one
level exists, and divide cost by executed quantity (0 when the executed
quantity is not positive). -/
def calculateExecutionPrice (quantity : ℚ) (side : Side) (depth : MarketDepth) : ℚ :=
  let orders := sideOrders side depth
  let w := walkOrders orders quantity 0 0
  let r := w.1
  let c := w.2.1
  let e := w.2.2
  let ce : ℚ × ℚ :=
    if 0 < r ∧ orders ≠ [] then
      (c + r * worstPrice orders * (102 / 100), e + r)
    else (c, e)
  if 0 < ce.2 then ce.1 / ce.2 else 0

/-- Realized slippage, from calculateActualSlippage of
slippage-calculator.service.ts. -/
structure ActualSlippage where
  slippageAmount : ℚ
  slippagePercent : ℚ
  totalCost : ℚ
deriving DecidableEq, Repr

/-- Realized slippage computation, from calculateActualSlippage: absolute
price difference, its percentage of the expected price, and the total cost
over the traded quantity.  The source performs the division unconditionally,
with no guard on the expected price. -/
def calculateActualSlippage (expectedPrice actualPrice quantity : ℚ) : ActualSlippage :=
  { slippageAmount := |actualPrice - expectedPrice|
    slippagePercent := |actualPrice - expectedPrice| / expectedPrice * 100
    totalCost := |actualPrice - expectedPrice| * quantity }

/-- Liquidity score, from calculateLiquidityScore: weighted sum of coverage
of the requested quantity by the top ten levels, spread tightness, and level
count, clamped to the unit interval. -/
def calculateLiquidityScore (depth : MarketDepth) (quantity : ℚ) (side : Side) : ℚ :=
  let orders := sideOrders side depth
  let availableLiquidity := ((orders.take 10).map (·.quantity)).sum
  let bestBid := match depth.bids.head? with
    | some o => o.price
    | none => 0
  let bestAsk := match depth.asks.head? with
    | some o => o.price
    | none => 0
  let midPrice := (bestBid + bestAsk) / 2
  let spreadPercent := if 0 < midPrice then (bestAsk - bestBid) / midPrice * 100 else 100
  let liquidityCoverage := min (availableLiquidity / quantity) 1
  let spreadScore := max 0 (1 - spreadPercent / 2)
  let depthScore := min ((orders.length : ℚ) / 20) 1
  let score := liquidityCoverage * (1 / 2) + spreadScore * (3 / 10) + depthScore * (1 / 5)
  max 0 (min 1 score)

/-- Expected price range, from calculatePriceRange: the larger of the
estimated and historical-average slippage, widened by a 20 percent safety
margin. -/
def calculatePriceRange (expectedPrice estimatedSlippagePercent : ℚ)
    (historical : Option HistoricalSlippage) : ℚ × ℚ :=
  let slippagePercent :=
    match historical with
    | some h =>
      if estimatedSlippagePercent < h.averageSlippage then h.averageSlippage
      else estimatedSlippagePercent
    | none => estimatedSlippagePercent
  let rangePercent := slippagePercent * (6 / 5)
  (expectedPrice * (1 - rangePercent / 100), expectedPrice * (1 + rangePercent / 100))

/-- Recommendation and reasoning, from generateRecommendation: delay on
slippage above 2 percent or liquidity below 0.3, caution on slippage above
0.5 percent or liquidity below 0.6, proceed otherwise.  The reason strings
keep the fixed texts of the source; the interpolated numbers are dropped. -/
def generateRecommendation (estimatedSlippage liquidityScore : ℚ)
    (historical : Option HistoricalSlippage) : TradeRecommendation × String :=
  let reasons : List String :=
    (if 1 < estimatedSlippage then ["High estimated slippage"] else []) ++
    (if liquidityScore < 3 / 10 then ["Low market liquidity"]
      else if liquidityScore < 3 / 5 then ["Moderate market liquidity"] else []) ++
    (match historical with
      | some h =>
        if h.averageSlippage * 2 < estimatedSlippage then
          ["Slippage significantly higher than historical average"]
        else []
      | none => [])
  if 2 < estimatedSlippage ∨ liquidityScore < 3 / 10 then
    (.delay, "Consider delaying trade: " ++ String.intercalate ", " reasons)
  else if 1 / 2 < estimatedSlippage ∨ liquidityScore < 3 / 5 then
    (.caution, "Proceed with caution: " ++ String.intercalate ", " reasons)
  else
    (.proceed, "Market conditions are favorable with good liquidity")

/-- Reference price used by estimateSlippage: the expected price of the
request when present and truthy (nonzero), else the current market price,
mirroring the JavaScript expression with the logical-or fallback. -/
def referencePrice (dto : SlippageEstimationDto) (currentPrice : ℚ) : ℚ :=
  match dto.expectedPrice with
  | some p => if p = 0 then currentPrice else p
  | none => currentPrice

/-- Pure core of estimateSlippage of slippage-calculator.service.ts, with
the market data (current price and depth) and the stored historical record
for the symbol passed as arguments in place of the provider calls and the
map read. -/
def estimateSlippage (dto : SlippageEstimationDto) (currentPrice : ℚ)
    (depth : MarketDepth) (historical : Option HistoricalSlippage) :
    SlippageEstimateResponseDto :=
  let estimatedExecutionPrice := calculateExecutionPrice dto.quantity dto.side depth
  let expectedPrice := referencePrice dto currentPrice
  let slippageAmount := |estimatedExecutionPrice - expectedPrice|
  let slippagePercent := slippageAmount / expectedPrice * 100
  let liquidityScore := calculateLiquidityScore depth dto.quantity dto.side
  let priceRange := calculatePriceRange expectedPrice slippagePercent historical
  let recommended := generateRecommendation slippagePercent liquidityScore historical
  { estimatedSlippagePercent := slippagePercent
    estimatedSlippageAmount := slippageAmount
    currentMarketPrice := currentPrice
    estimatedPriceRangeMin := priceRange.1
    estimatedPriceRangeMax := priceRange.2
    liquidityScore := liquidityScore
    recommendation := recommended.1
    reasoning := recommended.2 }

/-- Tolerance lookup, from getToleranceForLevel and the TOLERANCE_PRESETS
table. -/
def getToleranceForLevel (level : SlippageToleranceLevel) : ℚ :=
  match level with
  | .STRICT => 1 / 10
  | .MODERATE => 1 / 2
  | .RELAXED => 1

/-- Dynamic tolerance, from calculateDynamicTolerance: raise the base
tolerance under low liquidity or high volatility, capped at three times the
base. -/
def calculateDynamicTolerance (baseTolerancePercent liquidityScore volatility : ℚ) : ℚ :=
  let liquidityAdjustment := if liquidityScore < 1 / 2 then 1 - liquidityScore else 0
  let volatilityAdjustment := if 2 < volatility then volatility / 10 else 0
  min (baseTolerancePercent * (1 + liquidityAdjustment + volatilityAdjustment))
    (baseTolerancePercent * 3)

/-- Association-list model of a JavaScript Map: set replaces an existing
binding in place and otherwise appends, preserving insertion order. -/
def mapSet {α : Type} (m : List (String × α)) (k : String) (v : α) : List (String × α) :=
  match m with
  | [] => [(k, v)]
  | (k0, v0) :: rest => if k0 = k then (k, v) :: rest else (k0, v0) :: mapSet rest k v

/-- Association-list model of a JavaScript Map lookup. -/
def mapLookup {α : Type} (m : List (String × α)) (k : String) : Option α :=
  match m with
  | [] => none
  | (k0, v0) :: rest => if k0 = k then some v0 else mapLookup rest k

/-- Per-user preference record, from the UserSlippagePreferences interface
(lastUpdated omitted: no embedded function reads it). -/
structure UserSlippagePreferences where
  userId : String
  defaultConfig : SlippageConfigDto
  symbolOverrides : Option (List (String × SlippageConfigDto))
deriving DecidableEq, Repr

/-- System default configuration, from the DEFAULT_CONFIG constant of
slippage-protection.service.ts. -/
def DEFAULT_CONFIG : SlippageConfigDto :=
  { maxSlippagePercent := 1 / 2
    toleranceLevel := some .MODERATE
    enableDynamicSlippage := some true
    maxExecutionTimeMs := some 5000 }

/-- Report-log capacity, from the MAX_REPORTS_IN_MEMORY constant. -/
def MAX_REPORTS_IN_MEMORY : ℕ := 1000

/-- Configuration validation, from validateConfig of
slippage-protection.service.ts: reject a maxSlippagePercent outside 0 to
100, then reject a truthy (present and nonzero) maxExecutionTimeMs below
100.  The source has no upper-bound check on maxExecutionTimeMs. -/
def validateConfig (config : SlippageConfigDto) : Except String Unit :=
  if config.maxSlippagePercent < 0 ∨ 100 < config.maxSlippagePercent then
    .error "maxSlippagePercent must be between 0 and 100"
  else
    match config.maxExecutionTimeMs with
    | some t =>
      if t ≠ 0 ∧ t < 100 then .error "maxExecutionTimeMs must be at least 100ms"
      else .ok ()
    | none => .ok ()

/-- Validation of every override config, from the forEach loop of
setUserPreferences. -/
def validateOverrides : List (String × SlippageConfigDto) → Except String Unit
  | [] => .ok ()
  | (_, c) :: rest =>
    match validateConfig c with
    | .error msg => .error msg
    | .ok _ => validateOverrides rest

/-- Preference write, from setUserPreferences of
slippage-protection.service.ts: validate the config and every override, then
store the record under the user id.  A validation error propagates before
the map write, so a failed call leaves the store untouched. -/
def setUserPreferences (prefs : List (String × UserSlippagePreferences))
    (userId : String) (config : SlippageConfigDto)
    (symbolOverrides : Option (List (String × SlippageConfigDto))) :
    Except String (List (String × UserSlippagePreferences)) :=
  match validateConfig config with
  | .error msg => .error msg
  | .ok _ =>
    match symbolOverrides with
    | some ovs =>
      match validateOverrides ovs with
      | .error msg => .error msg
      | .ok _ => .ok (mapSet prefs userId ⟨userId, config, symbolOverrides⟩)
    | none => .ok (mapSet prefs userId ⟨userId, config, symbolOverrides⟩)

/-- Symbol-specific override write, from setSymbolOverride of
slippage-protection.service.ts: validate the config, extend the existing
override map (or a fresh one), and store the updated record, defaulting the
default config to DEFAULT_CONFIG for a user with no record. -/
def setSymbolOverride (prefs : List (String × UserSlippagePreferences))
    (userId symbol : String) (config : SlippageConfigDto) :
    Except String (List (String × UserSlippagePreferences)) :=
  match validateConfig config with
  | .error msg => .error msg
  | .ok _ =>
    let existing := mapLookup prefs userId
    let overrides :=
      match existing with
      | some e => e.symbolOverrides.getD []
      | none => []
    let overrides := mapSet overrides symbol config
    let defaultCfg :=
      match existing with
      | some e => e.defaultConfig
      | none => DEFAULT_CONFIG
    .ok (mapSet prefs userId ⟨userId, defaultCfg, some overrides⟩)

/-- Bounded report append, from storeReport of
slippage-protection.service.ts: push the report, then splice away the
oldest entries when the log exceeds MAX_REPORTS_IN_MEMORY. -/
def storeReport (reports : List SlippageReportDto) (report : SlippageReportDto) :
    List SlippageReportDto :=
  let l := reports ++ [report]
  if MAX_REPORTS_IN_MEMORY < l.length then l.drop (l.length - MAX_REPORTS_IN_MEMORY) else l

/-- Record written by one updateHistoricalSlippage call given the existing
entry for the symbol: a fresh record on first sight, otherwise the advanced
running average, maximum and sample count. -/
def nextHistoricalRecord (existing : Option HistoricalSlippage) (symbol : String)
    (actualSlippage : ℚ) : HistoricalSlippage :=
  match existing with
  | some e =>
    { symbol := symbol
      averageSlippage :=
        (e.averageSlippage * (e.sampleCount : ℚ) + actualSlippage) /
          ((e.sampleCount : ℚ) + 1)
      maxSlippage := max e.maxSlippage actualSlippage
      sampleCount := e.sampleCount + 1 }
  | none =>
    { symbol := symbol
      averageSlippage := actualSlippage
      maxSlippage := actualSlippage
      sampleCount := 1 }

/-- Historical running-statistics update, from updateHistoricalSlippage of
slippage-calculator.service.ts: look the symbol up and store the advanced
record. -/
def updateHistoricalSlippage (m : List (String × HistoricalSlippage))
    (symbol : String) (actualSlippage : ℚ) : List (String × HistoricalSlippage) :=
  mapSet m symbol (nextHistoricalRecord (mapLookup m symbol) symbol actualSlippage)

/-- Mutable state of the two services: the bounded report log, the
preference store and the historical per-symbol statistics. -/
structure EngineState where
  slippageReports : List SlippageReportDto
  userPreferences : List (String × UserSlippagePreferences)
  historicalSlippage : List (String × HistoricalSlippage)
deriving DecidableEq, Repr

/-- Report query filters, from the parameter object of getSlippageReports.
An absent filters argument is the record with every field none. -/
structure ReportFilters where
  symbol : Option String
  startDate : Option ℚ
  endDate : Option ℚ
  onlyExceeded : Option Bool
  limit : Option ℕ
deriving DecidableEq, Repr

/-- Report query, from getSlippageReports of
slippage-protection.service.ts: the log is copied, each present (and, for
the symbol, truthy) filter is applied as a conjunction, the copy is sorted
newest first, and a truthy limit truncates.  The original state is returned
alongside because only the copy is filtered and sorted. -/
def getSlippageReports (state : EngineState) (filters : ReportFilters) :
    List SlippageReportDto × EngineState :=
  let reports : List SlippageReportDto := state.slippageReports
  let reports : List SlippageReportDto :=
    match filters.symbol with
    | some s => if s = "" then reports else reports.filter (fun r => r.symbol == s)
    | none => reports
  let reports : List SlippageReportDto :=
    match filters.startDate with
    | some d => reports.filter (fun r => decide (d ≤ r.timestamp))
    | none => reports
  let reports : List SlippageReportDto :=
    match filters.endDate with
    | some d => reports.filter (fun r => decide (r.timestamp ≤ d))
    | none => reports
  let reports : List SlippageReportDto :=
    match filters.onlyExceeded with
    | some true => reports.filter (fun r => !r.withinLimits)
    | _ => reports
  let reports := reports.mergeSort (fun a b => decide (b.timestamp ≤ a.timestamp))
  let reports : List SlippageReportDto :=
    match filters.limit with
    | some n => if n = 0 then reports else reports.take n
    | none => reports
  (reports, state)

/-- Aggregated statistics record, from the return type of
getSlippageStatistics. -/
structure SlippageStatistics where
  averageSlippage : ℚ
  maxSlippage : ℚ
  minSlippage : ℚ
  totalTrades : ℕ
  tradesExceededLimits : ℕ
  totalSlippageCost : ℚ
deriving DecidableEq, Repr

/-- Statistics query, from getSlippageStatistics of
slippage-protection.service.ts, with the wall clock passed in: reports for
the symbol from the cutoff onward are aggregated, and a zero record is
returned when none match.  The log is only filtered, never mutated, so the
original state is returned alongside. -/
def getSlippageStatistics (state : EngineState) (symbol : String)
    (daysBack now : ℚ) : SlippageStatistics × EngineState :=
  let cutoffDate := now - daysBack
  let relevantReports := state.slippageReports.filter
    (fun r => r.symbol == symbol && decide (cutoffDate ≤ r.timestamp))
  match relevantReports with
  | [] => (⟨0, 0, 0, 0, 0, 0⟩, state)
  | h :: t =>
    let slippages := (h :: t).map (·.slippagePercent)
    let sum := slippages.sum
    (⟨sum / (slippages.length : ℚ),
      (t.map (·.slippagePercent)).foldl max h.slippagePercent,
      (t.map (·.slippagePercent)).foldl min h.slippagePercent,
      (h :: t).length,
      ((h :: t).filter (fun r => !r.withinLimits)).length,
      ((h :: t).map (·.totalSlippageCost)).sum⟩, state)

/-- Maximum allowed slippage, from calculateMaxAllowedSlippage of
slippage-protection.service.ts: the configured maximum, replaced by the
dynamic tolerance (with the placeholder volatility constant 1.0 of the
source) when dynamic slippage is enabled. -/
def calculateMaxAllowedSlippage (config : SlippageConfigDto) (liquidityScore : ℚ) : ℚ :=
  if config.enableDynamicSlippage = some true then
    calculateDynamicTolerance config.maxSlippagePercent liquidityScore 1
  else config.maxSlippagePercent

/-- Decision construction, from generateProtectionResult of
slippage-protection.service.ts.  The reason strings keep the fixed texts of
the source; the interpolated numbers are dropped. -/
def generateProtectionResult (estimatedSlippage maxAllowed : ℚ)
    (recommendation : TradeRecommendation) (isWithinLimits : Bool) :
    SlippageProtectionResult :=
  if !isWithinLimits || recommendation == .delay then
    { allowed := false
      reason := "Estimated slippage exceeds maximum allowed"
      estimatedSlippage := estimatedSlippage
      maxAllowedSlippage := maxAllowed
      recommendation := .reject }
  else if recommendation == .caution then
    { allowed := true
      reason := "Trade allowed with caution - slippage near upper limit"
      estimatedSlippage := estimatedSlippage
      maxAllowedSlippage := maxAllowed
      recommendation := .caution }
  else
    { allowed := true
      reason := "Trade within acceptable slippage limits"
      estimatedSlippage := estimatedSlippage
      maxAllowedSlippage := maxAllowed
      recommendation := .proceed }

/-- Decision core of validateTradeExecution of
slippage-protection.service.ts, with the applicable configuration already
resolved by getApplicableConfig and the engine estimate already obtained:
compute the maximum allowed slippage, compare the estimate against it, and
build the protection result.  The timing checkpoints of the source only log
and never change the result. -/
def validateTradeExecution (config : SlippageConfigDto)
    (estimation : SlippageEstimateResponseDto) : SlippageProtectionResult :=
  let maxAllowedSlippage := calculateMaxAllowedSlippage config estimation.liquidityScore
  let isWithinLimits :=
    decide (estimation.estimatedSlippagePercent ≤ maxAllowedSlippage)
  generateProtectionResult estimation.estimatedSlippagePercent maxAllowedSlippage
    estimation.recommendation isWithinLimits

/-- Order-splitting answer, from the return type of shouldSplitOrder of
trading.service.example.ts. -/
structure SplitOrderResult where
  shouldSplit : Bool
  reason : String
  recommendedChunkSize : Option ℚ
  estimatedChunks : Option ℤ
deriving DecidableEq, Repr

/-- Binary-search loop of shouldSplitOrder, with explicit fuel: while the
interval is wider than five percent of the total quantity, probe the
midpoint; an acceptable midpoint becomes the current best and the new lower
bound, otherwise it becomes the upper bound.  The interval width halves
exactly once per iteration from nine tenths of the total quantity, so the
guard fails after at most five iterations and fuel 6 runs the source loop
to completion; any larger fuel returns the same value. -/
def searchLoop (estimatePercent : ℚ → ℚ) (maxSlippagePercent totalQuantity : ℚ) :
    ℕ → ℚ → ℚ → ℚ → ℚ
  | 0, _, _, optimalChunkSize => optimalChunkSize
  | fuel + 1, low, high, optimalChunkSize =>
    if totalQuantity * (1 / 20) < high - low then
      let mid := (low + high) / 2
      if estimatePercent mid ≤ maxSlippagePercent then
        searchLoop estimatePercent maxSlippagePercent totalQuantity fuel mid high mid
      else
        searchLoop estimatePercent maxSlippagePercent totalQuantity fuel low mid optimalChunkSize
    else optimalChunkSize

/-- Order-splitting check, from shouldSplitOrder of
trading.service.example.ts, with the market data passed in: estimate the
full order, answer no-split when it is within the threshold, and otherwise
binary-search the largest acceptable chunk in the interval from one tenth of
the quantity to the whole, reporting the chunk count as the ceiling of the
quotient. -/
def shouldSplitOrder (symbol : String) (side : Side) (currentPrice : ℚ)
    (depth : MarketDepth) (historical : Option HistoricalSlippage)
    (totalQuantity maxSlippagePercent : ℚ) : SplitOrderResult :=
  let estimatePercent := fun q =>
    (estimateSlippage ⟨symbol, side, q, none⟩ currentPrice depth historical).estimatedSlippagePercent
  if estimatePercent totalQuantity ≤ maxSlippagePercent then
    { shouldSplit := false
      reason := "Full order within acceptable slippage limits"
      recommendedChunkSize := none
      estimatedChunks := none }
  else
    let optimalChunkSize := searchLoop estimatePercent maxSlippagePercent totalQuantity 6
      (totalQuantity * (1 / 10)) totalQuantity totalQuantity
    { shouldSplit := true
      reason := "Full order would exceed slippage limit"
      recommendedChunkSize := some optimalChunkSize
      estimatedChunks := some ⌈totalQuantity / optimalChunkSize⌉ }

/-- Walk of the order levels exactly as the specification sentence of claim
C4 words it, for comparison with walkOrders: accumulate fills until the
remaining quantity equals zero or the levels are exhausted. -/
def specWalkOrders : List OrderLevel → ℚ → ℚ → ℚ → ℚ × ℚ × ℚ
  | [], r, c, e => (r, c, e)
  | o :: rest, r, c, e =>
    if r = 0 then (r, c, e)
    else specWalkOrders rest (r - min r o.quantity)
      (c + min r o.quantity * o.price) (e + min r o.quantity)

/-- Projected execution price exactly as the specification sentences of
claim C4 word it, for comparison with calculateExecutionPrice: walk until
the remainder equals zero, extrapolate an unfilled remainder at 1.02 times
the worst available price when at least one level exists, and return cost
over filled, 0 when nothing is filled. -/
def executionPriceSpec (quantity : ℚ) (side : Side) (depth : MarketDepth) : ℚ :=
  let orders := sideOrders side depth
  let w := specWalkOrders orders quantity 0 0
  let r := w.1
  let c := w.2.1
  let e := w.2.2
  let ce : ℚ × ℚ :=
    if 0 < r ∧ orders ≠ [] then
      (c + r * worstPrice orders * (102 / 100), e + r)
    else (c, e)
  if ce.2 = 0 then 0 else ce.1 / ce.2

/-- C1: for every resolved configuration and engine estimate, the decision
of validateTradeExecution rejects (allowed false, recommendation reject)
when the estimated slippage percent exceeds the resolved maximum allowed or
the engine recommends delay; otherwise a caution recommendation gives an
allowed caution decision, and any other recommendation an allowed proceed
decision. -/
theorem validateTradeExecution_decision (config : SlippageConfigDto)
    (estimation : SlippageEstimateResponseDto) :
    (calculateMaxAllowedSlippage config estimation.liquidityScore <
          estimation.estimatedSlippagePercent ∨
        estimation.recommendation = .delay →
      (validateTradeExecution config estimation).allowed = false ∧
      (validateTradeExecution config estimation).recommendation = .reject) ∧
    (estimation.estimatedSlippagePercent ≤
          calculateMaxAllowedSlippage config estimation.liquidityScore →
      estimation.recommendation = .caution →
      (validateTradeExecution config estimation).allowed = true ∧
      (validateTradeExecution config estimation).recommendation = .caution) ∧
    (estimation.estimatedSlippagePercent ≤
          calculateMaxAllowedSlippage config estimation.liquidityScore →
      estimation.recommendation ≠ .delay → estimation.recommendation ≠ .caution →
      (validateTradeExecution config estimation).allowed = true ∧
      (validateTradeExecution config estimation).recommendation = .proceed) := by
  refine ⟨?_, ?_, ?_⟩
  · rintro (hlt | hdelay)
    · have hnle : ¬ estimation.estimatedSlippagePercent ≤
          calculateMaxAllowedSlippage config estimation.liquidityScore := not_le.mpr hlt
      simp [validateTradeExecution, generateProtectionResult, hnle]
    · simp [validateTradeExecution, generateProtectionResult, hdelay]
  · intro hle hcaution
    simp [validateTradeExecution, generateProtectionResult, hle, hcaution]
  · intro hle hdelay hcaution
    simp [validateTradeExecution, generateProtectionResult, hle, hdelay, hcaution]

/-- Witness for C1: a concrete estimate recommending delay is rejected. -/
theorem validateTradeExecution_decision_witness :
    (validateTradeExecution DEFAULT_CONFIG ⟨100, 0, 0, 0, 0, 0, .delay, ""⟩).allowed = false ∧
    (validateTradeExecution DEFAULT_CONFIG ⟨100, 0, 0, 0, 0, 0, .delay, ""⟩).recommendation =
      .reject :=
  (validateTradeExecution_decision DEFAULT_CONFIG ⟨100, 0, 0, 0, 0, 0, .delay, ""⟩).1
    (Or.inr rfl)

/-- C7 (amended): the dynamic tolerance never exceeds three times the base
for any inputs, and for a nonnegative base it is never below the base and
equals the base when the liquidity score is at least 0.5 and the volatility
at most 2.0. -/
theorem calculateDynamicTolerance_bounds (b l v : ℚ) :
    calculateDynamicTolerance b l v ≤ b * 3 ∧
    (0 ≤ b → b ≤ calculateDynamicTolerance b l v) ∧
    (0 ≤ b → 1 / 2 ≤ l → v ≤ 2 → calculateDynamicTolerance b l v = b) := by
  have h1 : 0 ≤ (if l < 1 / 2 then 1 - l else 0 : ℚ) := by split <;> linarith
  have h2 : 0 ≤ (if 2 < v then v / 10 else 0 : ℚ) := by split <;> linarith
  simp only [calculateDynamicTolerance]
  refine ⟨min_le_right _ _, ?_, ?_⟩
  · intro hb
    refine le_min ?_ (by linarith)
    nlinarith [mul_nonneg hb (add_nonneg h1 h2)]
  · intro hb hl hv
    rw [if_neg (not_lt.mpr hl), if_neg (not_lt.mpr hv)]
    have hbb : b * (1 + 0 + 0) = b := by ring
    rw [hbb]
    exact min_eq_left (by linarith)

/-- Witness for C7: at base 2 with high liquidity and low volatility the
tolerance is exactly the base. -/
theorem calculateDynamicTolerance_bounds_witness :
    (0 : ℚ) ≤ 2 ∧ (1 / 2 : ℚ) ≤ 1 ∧ (1 : ℚ) ≤ 2 ∧ calculateDynamicTolerance 2 1 1 = 2 :=
  ⟨by norm_num, by norm_num, by norm_num,
    (calculateDynamicTolerance_bounds 2 1 1).2.2 (by norm_num) (by norm_num) (by norm_num)⟩

/-- Counterexample for C7 as stated: at the negative base -1 the dynamic
tolerance is -3, strictly below the base, so the result can fall below the
base and fail to equal it even with liquidity 1 and volatility 1. -/
theorem calculateDynamicTolerance_neg_base_counterexample :
    calculateDynamicTolerance (-1) 1 1 < -1 := by
  norm_num [calculateDynamicTolerance, min_def]

/-- C2 (code evaluation at the failing input): with a negative expected
price the source functions return a definite result instead of rejecting
the call; calculateActualSlippage even reports a negative slippage percent,
and estimateSlippage likewise returns a negative estimated percent. -/
theorem calculateActualSlippage_accepts_nonpositive_expected :
    calculateActualSlippage (-100) 50 2 =
      { slippageAmount := 150, slippagePercent := -150, totalCost := 300 } ∧
    (estimateSlippage ⟨"BTC-USD", .buy, 1, some (-100)⟩ 45000
        ⟨[], [⟨10, 1⟩]⟩ none).estimatedSlippagePercent = -110 := by
  constructor
  · simp only [calculateActualSlippage, ActualSlippage.mk.injEq]
    norm_num
  · norm_num [estimateSlippage, referencePrice, calculateExecutionPrice, sideOrders,
      walkOrders, worstPrice, min_def]

/-- Folding the bounded append from an empty log always leaves the suffix of
the inserted sequence that fits the capacity. -/
theorem storeReport_foldl (rs : List SlippageReportDto) :
    List.foldl storeReport [] rs = rs.drop (rs.length - MAX_REPORTS_IN_MEMORY) := by
  have hM : 1 ≤ MAX_REPORTS_IN_MEMORY := by norm_num [MAX_REPORTS_IN_MEMORY]
  induction rs using List.reverseRecOn with
  | nil => simp
  | append_singleton rs r ih =>
    rw [List.foldl_append, List.foldl_cons, List.foldl_nil, ih]
    simp only [storeReport, List.length_append, List.length_drop,
      List.length_singleton]
    rcases Nat.lt_or_ge rs.length MAX_REPORTS_IN_MEMORY with h | h
    · have e1 : rs.length - MAX_REPORTS_IN_MEMORY = 0 := by omega
      have e2 : rs.length + 1 - MAX_REPORTS_IN_MEMORY = 0 := by omega
      rw [if_neg (by omega), e1, e2, List.drop_zero, List.drop_zero]
    · have e1 : rs.length - (rs.length - MAX_REPORTS_IN_MEMORY) =
          MAX_REPORTS_IN_MEMORY := by omega
      rw [if_pos (by omega)]
      have e2 : rs.length - (rs.length - MAX_REPORTS_IN_MEMORY) + 1 -
          MAX_REPORTS_IN_MEMORY = 1 := by omega
      rw [e2]
      rw [List.drop_append_of_le_length (by simp; omega)]
      rw [List.drop_append_of_le_length (by omega)]
      rw [List.drop_drop]
      have e3 : rs.length - MAX_REPORTS_IN_MEMORY + 1 =
          rs.length + 1 - MAX_REPORTS_IN_MEMORY := by omega
      rw [e3]

/-- C3: inserting capacity plus k reports into an empty log via storeReport
leaves exactly the most recent capacity reports, the k oldest having been
evicted first in first-in-first-out order. -/
theorem storeReport_capacity (rs : List SlippageReportDto) (k : ℕ)
    (h : rs.length = MAX_REPORTS_IN_MEMORY + k) :
    List.foldl storeReport [] rs = rs.drop k := by
  rw [storeReport_foldl, h]
  have e1 : MAX_REPORTS_IN_MEMORY + k - MAX_REPORTS_IN_MEMORY = k := by omega
  rw [e1]

/-- Witness for C3: a log of capacity plus one identical reports keeps all
but the first. -/
theorem storeReport_capacity_witness :
    (List.replicate (MAX_REPORTS_IN_MEMORY + 1)
        (⟨0, 0, 0, 0, 0, 0, true, 0, "", .buy⟩ : SlippageReportDto)).length =
      MAX_REPORTS_IN_MEMORY + 1 ∧
    List.foldl storeReport []
        (List.replicate (MAX_REPORTS_IN_MEMORY + 1)
          (⟨0, 0, 0, 0, 0, 0, true, 0, "", .buy⟩ : SlippageReportDto)) =
      (List.replicate (MAX_REPORTS_IN_MEMORY + 1)
          (⟨0, 0, 0, 0, 0, 0, true, 0, "", .buy⟩ : SlippageReportDto)).drop 1 :=
  ⟨by simp, storeReport_capacity _ 1 (by simp)⟩

/-- Condition under which validateConfig rejects a configuration: an
out-of-range maxSlippagePercent, or a present, nonzero maxExecutionTimeMs
below 100.  There is no upper-bound condition. -/
def configRejected (c : SlippageConfigDto) : Prop :=
  c.maxSlippagePercent < 0 ∨ 100 < c.maxSlippagePercent ∨
    ∃ t, c.maxExecutionTimeMs = some t ∧ t ≠ 0 ∧ t < 100

/-- Characterization of validateConfig failures. -/
theorem validateConfig_error_iff (c : SlippageConfigDto) :
    (∃ msg, validateConfig c = .error msg) ↔ configRejected c := by
  obtain ⟨msp, tol, dyn, mets⟩ := c
  unfold validateConfig configRejected
  dsimp only
  by_cases h1 : msp < 0 ∨ 100 < msp
  · rw [if_pos h1]
    constructor
    · intro _
      tauto
    · intro _
      exact ⟨_, rfl⟩
  · rw [if_neg h1]
    rcases mets with _ | t
    · simp only [Except.ok.injEq]
      constructor
      · rintro ⟨msg, hmsg⟩
        exact Except.noConfusion hmsg
      · rintro (h | h | ⟨t2, ht2, hnz, hlt⟩)
        · exact absurd (Or.inl h) h1
        · exact absurd (Or.inr h) h1
        · exact Option.noConfusion ht2
    · simp only []
      by_cases h2 : t ≠ 0 ∧ t < 100
      · rw [if_pos h2]
        constructor
        · intro _
          exact Or.inr (Or.inr ⟨t, rfl, h2⟩)
        · intro _
          exact ⟨_, rfl⟩
      · rw [if_neg h2]
        constructor
        · rintro ⟨msg, hmsg⟩
          exact Except.noConfusion hmsg
        · rintro (h | h | ⟨t2, ht2, hnz, hlt⟩)
          · exact absurd (Or.inl h) h1
          · exact absurd (Or.inr h) h1
          · rw [Option.some_inj] at ht2
            subst ht2
            exact absurd ⟨hnz, hlt⟩ h2

/-- A configuration that validates successfully is not rejected. -/
theorem validateConfig_ok_not_rejected (c : SlippageConfigDto) (u : Unit)
    (h : validateConfig c = .ok u) : ¬ configRejected c := by
  intro hr
  obtain ⟨msg, hmsg⟩ := (validateConfig_error_iff c).mpr hr
  rw [h] at hmsg
  exact Except.noConfusion hmsg

/-- Characterization of validateOverrides failures. -/
theorem validateOverrides_error_iff (ovs : List (String × SlippageConfigDto)) :
    (∃ msg, validateOverrides ovs = .error msg) ↔ ∃ p ∈ ovs, configRejected p.2 := by
  induction ovs with
  | nil => simp [validateOverrides]
  | cons hd tl ih =>
    obtain ⟨s, c⟩ := hd
    rcases hv : validateConfig c with msg | u
    · have hc : configRejected c := (validateConfig_error_iff c).mp ⟨msg, hv⟩
      simp [validateOverrides, hv, hc]
    · have hc : ¬ configRejected c := validateConfig_ok_not_rejected c u hv
      simp [validateOverrides, hv, ih, hc]

/-- C6 (amended): a preference write fails, with an invalid-configuration
error and no store mutation (the error branch carries no updated store),
exactly when maxSlippagePercent is outside 0 to 100 or a present nonzero
maxExecutionTimeMs is below 100 (for setUserPreferences also when any
symbol override is so rejected); values of maxExecutionTimeMs above 30000,
or equal to 0, are accepted. -/
theorem preference_write_validation (prefs : List (String × UserSlippagePreferences))
    (userId symbol : String) (config : SlippageConfigDto)
    (ovs : List (String × SlippageConfigDto)) :
    ((∃ msg, setUserPreferences prefs userId config (some ovs) = .error msg) ↔
      configRejected config ∨ ∃ p ∈ ovs, configRejected p.2) ∧
    ((∃ msg, setUserPreferences prefs userId config none = .error msg) ↔
      configRejected config) ∧
    ((∃ msg, setSymbolOverride prefs userId symbol config = .error msg) ↔
      configRejected config) := by
  refine ⟨?_, ?_, ?_⟩
  · rcases hv : validateConfig config with msg | u
    · have hc : configRejected config := (validateConfig_error_iff config).mp ⟨msg, hv⟩
      simp [setUserPreferences, hv, hc]
    · have hc : ¬ configRejected config := validateConfig_ok_not_rejected config u hv
      rcases ho : validateOverrides ovs with msg | u2
      · have hex : ∃ p ∈ ovs, configRejected p.2 :=
          (validateOverrides_error_iff ovs).mp ⟨msg, ho⟩
        simp [setUserPreferences, hv, ho, hc, hex]
      · have hno : ¬ ∃ p ∈ ovs, configRejected p.2 := by
          intro hex
          obtain ⟨msg, hmsg⟩ := (validateOverrides_error_iff ovs).mpr hex
          rw [ho] at hmsg
          exact Except.noConfusion hmsg
        simp [setUserPreferences, hv, ho, hc, hno]
  · rcases hv : validateConfig config with msg | u
    · have hc : configRejected config := (validateConfig_error_iff config).mp ⟨msg, hv⟩
      simp [setUserPreferences, hv, hc]
    · have hc : ¬ configRejected config := validateConfig_ok_not_rejected config u hv
      simp [setUserPreferences, hv, hc]
  · rcases hv : validateConfig config with msg | u
    · have hc : configRejected config := (validateConfig_error_iff config).mp ⟨msg, hv⟩
      simp [setSymbolOverride, hv, hc]
    · have hc : ¬ configRejected config := validateConfig_ok_not_rejected config u hv
      simp [setSymbolOverride, hv, hc]

/-- Counterexample for C6 as stated: a write whose maxExecutionTimeMs is
50000, outside the documented 100 to 30000 range, succeeds and mutates the
store rather than failing. -/
theorem setUserPreferences_large_timeout_counterexample :
    setUserPreferences [] "user1"
        ⟨1 / 2, some .MODERATE, some true, some 50000⟩ none =
      .ok [("user1",
        ⟨"user1", ⟨1 / 2, some .MODERATE, some true, some 50000⟩, none⟩)] := by
  norm_num [setUserPreferences, validateConfig, mapSet]

/-- Setting a key in the association-list map makes it the value looked up
at that key. -/
theorem mapLookup_mapSet_self {α : Type} (m : List (String × α)) (k : String) (v : α) :
    mapLookup (mapSet m k v) k = some v := by
  induction m with
  | nil => simp [mapSet, mapLookup]
  | cons hd tl ih =>
    obtain ⟨k0, v0⟩ := hd
    by_cases h : k0 = k
    · simp [mapSet, mapLookup, h]
    · simp [mapSet, mapLookup, h, ih]

/-- Looking the symbol up after a sequence of historical updates is the
fold of the per-entry step over the sequence. -/
theorem foldl_updateHistoricalSlippage_lookup (symbol : String) (vs : List ℚ) :
    ∀ m : List (String × HistoricalSlippage),
      mapLookup (vs.foldl (fun acc v => updateHistoricalSlippage acc symbol v) m) symbol =
        vs.foldl (fun o v => some (nextHistoricalRecord o symbol v)) (mapLookup m symbol) := by
  induction vs with
  | nil =>
    intro m
    simp
  | cons v t ih =>
    intro m
    simp only [List.foldl_cons]
    have h0 : mapLookup (updateHistoricalSlippage m symbol v) symbol =
        some (nextHistoricalRecord (mapLookup m symbol) symbol v) := by
      simp [updateHistoricalSlippage, mapLookup_mapSet_self]
    rw [ih, h0]

/-- Invariant of the per-entry historical step: folding further samples onto
a record advances the sum-scaled average, the running maximum and the
count. -/
theorem foldl_nextHistoricalRecord (symbol : String) (t : List ℚ) :
    ∀ e : HistoricalSlippage, e.symbol = symbol → 0 < e.sampleCount →
      t.foldl (fun o v => some (nextHistoricalRecord o symbol v)) (some e) =
        some { symbol := symbol
               averageSlippage :=
                 (e.averageSlippage * (e.sampleCount : ℚ) + t.sum) /
                   ((e.sampleCount : ℚ) + (t.length : ℚ))
               maxSlippage := t.foldl max e.maxSlippage
               sampleCount := e.sampleCount + t.length } := by
  induction t with
  | nil =>
    intro e hsym hpos
    obtain ⟨s0, a0, m0, n0⟩ := e
    dsimp at hsym hpos ⊢
    subst hsym
    have hn : ((n0 : ℚ)) ≠ 0 := Nat.cast_ne_zero.mpr (Nat.pos_iff_ne_zero.mp hpos)
    simp [mul_div_cancel_right₀ _ hn]
  | cons v rest ih =>
    intro e hsym hpos
    simp only [List.foldl_cons]
    have h1 := ih (nextHistoricalRecord (some e) symbol v)
      (by simp [nextHistoricalRecord]) (by simp [nextHistoricalRecord])
    rw [h1]
    obtain ⟨s0, a0, m0, n0⟩ := e
    dsimp at hsym hpos ⊢
    simp only [nextHistoricalRecord, Option.some.injEq, HistoricalSlippage.mk.injEq]
    have hden : ((n0 : ℚ) + 1) ≠ 0 := by positivity
    refine ⟨trivial, ?_, trivial, by omega⟩
    push_cast
    rw [div_mul_cancel₀ _ hden]
    ring

/-- C5: starting from no record for the symbol, a sequence of historical
updates with values v, vs leaves a record whose average is the arithmetic
mean of the values, whose sample count is their number, and whose maximum is
their maximum. -/
theorem updateHistoricalSlippage_running_stats
    (m : List (String × HistoricalSlippage)) (symbol : String) (v : ℚ) (vs : List ℚ)
    (h0 : mapLookup m symbol = none) :
    mapLookup ((v :: vs).foldl (fun acc x => updateHistoricalSlippage acc symbol x) m)
        symbol =
      some { symbol := symbol
             averageSlippage := (v + vs.sum) / (((v :: vs).length : ℕ) : ℚ)
             maxSlippage := vs.foldl max v
             sampleCount := (v :: vs).length } := by
  rw [foldl_updateHistoricalSlippage_lookup, h0]
  simp only [List.foldl_cons]
  have h1 := foldl_nextHistoricalRecord symbol vs (nextHistoricalRecord none symbol v)
    (by simp [nextHistoricalRecord]) (by simp [nextHistoricalRecord])
  rw [h1]
  simp only [nextHistoricalRecord, Option.some.injEq, HistoricalSlippage.mk.injEq,
    List.length_cons]
  refine ⟨trivial, ?_, trivial, by omega⟩
  push_cast
  ring

/-- Witness for C5: two updates with values 1 and 3 leave average 2, maximum
3 and sample count 2. -/
theorem updateHistoricalSlippage_running_stats_witness :
    mapLookup (([1, 3] : List ℚ).foldl (fun acc x => updateHistoricalSlippage acc "BTC" x)
        []) "BTC" = some ⟨"BTC", 2, 3, 2⟩ := by
  have h := updateHistoricalSlippage_running_stats [] "BTC" 1 [3] rfl
  norm_num [max_def] at h
  exact h

/-- With a nonnegative remaining quantity the break condition of the source
loop (remaining at most zero) coincides with the specification wording
(remaining equal to zero), so the two walks agree. -/
theorem walkOrders_eq_spec (os : List OrderLevel) :
    ∀ r c e : ℚ, 0 ≤ r → walkOrders os r c e = specWalkOrders os r c e := by
  induction os with
  | nil =>
    intro r c e _
    rfl
  | cons o rest ih =>
    intro r c e hr
    by_cases h0 : r = 0
    · subst h0
      simp [walkOrders, specWalkOrders]
    · have hlt : 0 < r := lt_of_le_of_ne hr (Ne.symm h0)
      simp only [walkOrders, specWalkOrders]
      rw [if_neg (not_le.mpr hlt), if_neg h0]
      exact ih _ _ _ (sub_nonneg.mpr (min_le_left r o.quantity))

/-- The walk never drives a nonnegative remaining quantity negative. -/
theorem walkOrders_fst_nonneg (os : List OrderLevel) :
    ∀ r c e : ℚ, 0 ≤ r → 0 ≤ (walkOrders os r c e).1 := by
  induction os with
  | nil =>
    intro r c e hr
    exact hr
  | cons o rest ih =>
    intro r c e hr
    simp only [walkOrders]
    split
    · exact hr
    · exact ih _ _ _ (sub_nonneg.mpr (min_le_left r o.quantity))

/-- The walk conserves the sum of the remaining and executed quantities. -/
theorem walkOrders_fst_add_exec (os : List OrderLevel) :
    ∀ r c e : ℚ, (walkOrders os r c e).1 + (walkOrders os r c e).2.2 = r + e := by
  induction os with
  | nil =>
    intro r c e
    rfl
  | cons o rest ih =>
    intro r c e
    simp only [walkOrders]
    split
    · rfl
    · rw [ih]
      ring

/-- The specification walk from a zero remainder returns immediately. -/
theorem specWalkOrders_zero (os : List OrderLevel) (c e : ℚ) :
    specWalkOrders os 0 c e = (0, c, e) := by
  cases os <;> simp [specWalkOrders]

/-- C4 (amended): for every nonnegative quantity, side and book, the source
execution price agrees with the walk described by the specification
sentences. -/
theorem calculateExecutionPrice_eq_spec (quantity : ℚ) (side : Side)
    (depth : MarketDepth) (hq : 0 ≤ quantity) :
    calculateExecutionPrice quantity side depth =
      executionPriceSpec quantity side depth := by
  simp only [calculateExecutionPrice, executionPriceSpec]
  rw [walkOrders_eq_spec _ _ _ _ hq]
  have hr0 : 0 ≤ (specWalkOrders (sideOrders side depth) quantity 0 0).1 := by
    rw [← walkOrders_eq_spec _ _ _ _ hq]
    exact walkOrders_fst_nonneg _ _ _ _ hq
  have hsum : (specWalkOrders (sideOrders side depth) quantity 0 0).1 +
      (specWalkOrders (sideOrders side depth) quantity 0 0).2.2 = quantity + 0 := by
    rw [← walkOrders_eq_spec _ _ _ _ hq]
    exact walkOrders_fst_add_exec _ _ _ _
  set w := specWalkOrders (sideOrders side depth) quantity 0 0 with hw
  by_cases hext : 0 < w.1 ∧ sideOrders side depth ≠ []
  · rw [if_pos hext]
    dsimp only
    have he : w.2.2 + w.1 = quantity := by linarith
    rw [he]
    rcases eq_or_lt_of_le hq with h3 | h3
    · exfalso
      have hz : w.1 = 0 := by
        rw [hw, ← h3, specWalkOrders_zero]
      rw [hz] at hext
      exact lt_irrefl 0 hext.1
    · rw [if_pos h3, if_neg (ne_of_gt h3)]
  · rw [if_neg hext]
    dsimp only
    rcases not_and_or.mp hext with h | h
    · have h1 : w.1 = 0 := le_antisymm (not_lt.mp h) hr0
      have h2 : w.2.2 = quantity := by linarith
      rw [h2]
      rcases eq_or_lt_of_le hq with h3 | h3
      · rw [← h3]
        simp
      · rw [if_pos h3, if_neg (ne_of_gt h3)]
    · have hs : sideOrders side depth = [] := not_not.mp h
      rw [hw, hs]
      simp [specWalkOrders]

/-- Witness for C4: at quantity 2 on a one-level book the two definitions
agree. -/
theorem calculateExecutionPrice_eq_spec_witness :
    (0 : ℚ) ≤ 2 ∧ calculateExecutionPrice 2 .buy ⟨[], [⟨10, 1⟩]⟩ =
      executionPriceSpec 2 .buy ⟨[], [⟨10, 1⟩]⟩ :=
  ⟨by norm_num, calculateExecutionPrice_eq_spec 2 .buy ⟨[], [⟨10, 1⟩]⟩ (by norm_num)⟩

/-- Counterexample for C4 as stated: at the negative quantity -5 the source
breaks out of the walk immediately (remaining at most zero) and returns 0,
while the walk worded by the specification (until remaining equals zero)
fills -5 at the single level and returns 10. -/
theorem calculateExecutionPrice_negative_quantity_counterexample :
    calculateExecutionPrice (-5) .buy ⟨[], [⟨10, 1⟩]⟩ ≠
      executionPriceSpec (-5) .buy ⟨[], [⟨10, 1⟩]⟩ := by
  norm_num [calculateExecutionPrice, executionPriceSpec, sideOrders, walkOrders,
    specWalkOrders, worstPrice, min_def]

/-- An estimated slippage above 2 percent always produces a delay
recommendation. -/
theorem generateRecommendation_delay (p l : ℚ) (h : Option HistoricalSlippage)
    (hp : 2 < p) : (generateRecommendation p l h).1 = .delay := by
  simp only [generateRecommendation]
  rw [if_pos (Or.inl hp)]

/-- C9: with a positive quantity, a positive reference price and an empty
opposite book side, the projected execution price is 0 (no extrapolation is
applied), the estimated slippage percent is exactly 100, and the
recommendation is delay. -/
theorem estimateSlippage_empty_side (dto : SlippageEstimationDto) (currentPrice : ℚ)
    (depth : MarketDepth) (historical : Option HistoricalSlippage)
    (_hq : 0 < dto.quantity) (href : 0 < referencePrice dto currentPrice)
    (hempty : sideOrders dto.side depth = []) :
    calculateExecutionPrice dto.quantity dto.side depth = 0 ∧
    (estimateSlippage dto currentPrice depth historical).estimatedSlippagePercent = 100 ∧
    (estimateSlippage dto currentPrice depth historical).recommendation = .delay := by
  have hexec : calculateExecutionPrice dto.quantity dto.side depth = 0 := by
    simp [calculateExecutionPrice, hempty, walkOrders]
  have hp : |calculateExecutionPrice dto.quantity dto.side depth -
      referencePrice dto currentPrice| / referencePrice dto currentPrice * 100 = 100 := by
    rw [hexec, zero_sub, abs_neg, abs_of_pos href, div_self (ne_of_gt href), one_mul]
  refine ⟨hexec, ?_, ?_⟩
  · simp only [estimateSlippage]
    exact hp
  · simp only [estimateSlippage]
    rw [hp]
    exact generateRecommendation_delay _ _ _ (by norm_num)

/-- Witness for C9: a buy of quantity 1 with expected price 100 against an
empty ask book. -/
theorem estimateSlippage_empty_side_witness :
    calculateExecutionPrice (1 : ℚ) .buy ⟨[], []⟩ = 0 ∧
    (estimateSlippage ⟨"X", .buy, 1, some 100⟩ 45000 ⟨[], []⟩
        none).estimatedSlippagePercent = 100 ∧
    (estimateSlippage ⟨"X", .buy, 1, some 100⟩ 45000 ⟨[], []⟩
        none).recommendation = .delay :=
  estimateSlippage_empty_side ⟨"X", .buy, 1, some 100⟩ 45000 ⟨[], []⟩ none
    (by norm_num) (by norm_num [referencePrice]) rfl

/-- C8: when the full-order estimate is within the threshold the answer is
no-split with no chunk fields; otherwise the answer is split with the
estimated chunk count being the ceiling of the total quantity over the
recommended chunk size. -/
theorem shouldSplitOrder_branches (symbol : String) (side : Side) (currentPrice : ℚ)
    (depth : MarketDepth) (historical : Option HistoricalSlippage)
    (totalQuantity maxSlippagePercent : ℚ) :
    ((estimateSlippage ⟨symbol, side, totalQuantity, none⟩ currentPrice depth
          historical).estimatedSlippagePercent ≤ maxSlippagePercent →
      shouldSplitOrder symbol side currentPrice depth historical totalQuantity
          maxSlippagePercent =
        ⟨false, "Full order within acceptable slippage limits", none, none⟩) ∧
    (¬ (estimateSlippage ⟨symbol, side, totalQuantity, none⟩ currentPrice depth
          historical).estimatedSlippagePercent ≤ maxSlippagePercent →
      (shouldSplitOrder symbol side currentPrice depth historical totalQuantity
          maxSlippagePercent).shouldSplit = true ∧
      ∃ c, (shouldSplitOrder symbol side currentPrice depth historical totalQuantity
            maxSlippagePercent).recommendedChunkSize = some c ∧
        (shouldSplitOrder symbol side currentPrice depth historical totalQuantity
            maxSlippagePercent).estimatedChunks = some ⌈totalQuantity / c⌉) := by
  constructor
  · intro h
    simp only [shouldSplitOrder]
    rw [if_pos h]
  · intro h
    simp only [shouldSplitOrder]
    rw [if_neg h]
    exact ⟨rfl, _, rfl, rfl⟩

/-- Witness for C8: a buy of quantity 1 against an empty book estimates 100
percent slippage, above the 0.5 threshold, so the order is split. -/
theorem shouldSplitOrder_branches_witness :
    (shouldSplitOrder "S" .buy 100 ⟨[], []⟩ none 1 (1 / 2)).shouldSplit = true ∧
    ∃ c, (shouldSplitOrder "S" .buy 100 ⟨[], []⟩ none 1
          (1 / 2)).recommendedChunkSize = some c ∧
      (shouldSplitOrder "S" .buy 100 ⟨[], []⟩ none 1
          (1 / 2)).estimatedChunks = some ⌈(1 : ℚ) / c⌉ :=
  (shouldSplitOrder_branches "S" .buy 100 ⟨[], []⟩ none 1 (1 / 2)).2
    (by norm_num [estimateSlippage, referencePrice, calculateExecutionPrice,
      sideOrders, walkOrders, worstPrice])

/-- C10: the report and statistics queries return the engine state
unchanged: the log (contents and order), the preference store and the
historical statistics are identical before and after the call, the
newest-first sort acting only on the copied list. -/
theorem query_operations_frame (state : EngineState) (filters : ReportFilters)
    (symbol : String) (daysBack now : ℚ) :
    (getSlippageReports state filters).2 = state ∧
    (getSlippageStatistics state symbol daysBack now).2 = state := by
  constructor
  · rfl
  · simp only [getSlippageStatistics]
    split <;> rfl

/-- When the interval is already within five percent of the total quantity
the search loop returns its current best regardless of remaining fuel. -/
theorem searchLoop_stop (est : ℚ → ℚ) (maxPct total : ℚ) (n : ℕ) (low high opt : ℚ)
    (h : ¬ total * (1 / 20) < high - low) :
    searchLoop est maxPct total n low high opt = opt := by
  cases n with
  | zero => rfl
  | succ n =>
    simp only [searchLoop]
    rw [if_neg h]

/-- The search interval halves exactly once per iteration, so fuel beyond
the number of halvings needed to shrink the interval under the threshold
does not change the result. -/
theorem searchLoop_halving (est : ℚ → ℚ) (maxPct total : ℚ) :
    ∀ (n m : ℕ) (low high opt : ℚ),
      high - low ≤ 2 ^ n * (total * (1 / 20)) →
      searchLoop est maxPct total (n + m) low high opt =
        searchLoop est maxPct total n low high opt := by
  intro n
  induction n with
  | zero =>
    intro m low high opt h
    rw [searchLoop_stop _ _ _ _ _ _ _ (not_lt.mpr (by simpa using h))]
    rfl
  | succ n ih =>
    intro m low high opt h
    by_cases hg : total * (1 / 20) < high - low
    · have hs : n + 1 + m = (n + m) + 1 := by omega
      rw [hs]
      simp only [searchLoop]
      rw [if_pos hg, if_pos hg]
      have hh : (2 : ℚ) ^ (n + 1) = 2 ^ n * 2 := pow_succ 2 n
      by_cases he : est ((low + high) / 2) ≤ maxPct
      · rw [if_pos he, if_pos he]
        refine ih m _ _ _ ?_
        rw [hh] at h
        linarith
      · rw [if_neg he, if_neg he]
        refine ih m _ _ _ ?_
        rw [hh] at h
        linarith
    · rw [searchLoop_stop _ _ _ _ _ _ _ hg, searchLoop_stop _ _ _ _ _ _ _ hg]

/-- From the initial interval of shouldSplitOrder (one tenth of the total up
to the total) five halvings shrink the width under five percent of the
total, so fuel 6 runs the source while-loop to completion: any larger fuel
returns the same chunk size. -/
theorem searchLoop_fuel_stable (est : ℚ → ℚ) (maxPct total : ℚ) (m : ℕ) :
    searchLoop est maxPct total (6 + m) (total * (1 / 10)) total total =
      searchLoop est maxPct total 6 (total * (1 / 10)) total total := by
  rcases le_or_lt total 0 with h | h
  · rw [searchLoop_stop _ _ _ _ _ _ _ (not_lt.mpr (by linarith)),
      searchLoop_stop _ _ _ _ _ _ _ (not_lt.mpr (by linarith))]
  · have hw : total - total * (1 / 10) ≤ 2 ^ 5 * (total * (1 / 20)) := by
      rw [show ((2 : ℚ) ^ 5) = 32 by norm_num]
      linarith
    rw [show (6 : ℕ) + m = 5 + (1 + m) from by omega,
      searchLoop_halving est maxPct total 5 (1 + m) _ _ _ hw,
      show (6 : ℕ) = 5 + 1 from by norm_num,
      searchLoop_halving est maxPct total 5 1 _ _ _ hw]
